import Mathlib

/-!
Verification of the parking-manager repository's core:
the owner-application approval workflow, the role-based authorization
guards, the ownership cascade removal, the zone availability aggregator,
and the zone save validation.  Each definition is a shallow embedding of
one function of the source (TypeScript components and the
`process_owner_application` plpgsql procedure recorded in
DEPLOYMENT_CHECKLIST.md), over an explicit relational-store state.
-/

namespace ParkingManager

/-- `user_role` values of the `profiles` table (supabase.ts). -/
inductive Role where
  | user
  | location_owner
  | super_admin
deriving DecidableEq

/-- `status` values of the `owner_applications` table (supabase.ts). -/
inductive AppStatus where
  | pending
  | approved
  | rejected
deriving DecidableEq

/-- `status` values of the `parking_zones` table (supabase.ts). -/
inductive ZoneStatus where
  | available
  | full
  | maintenance
deriving DecidableEq

/-- Row of the `profiles` table (supabase.ts, `Database` type). -/
structure Profile where
  id : String
  email : Option String
  full_name : Option String
  phone : Option String
  avatar_url : Option String
  user_role : Role
  created_at : String
  updated_at : String
deriving DecidableEq

/-- Row of the `owner_applications` table (supabase.ts, `Database` type). -/
structure OwnerApplication where
  id : String
  user_id : String
  contact_person : String
  phone : String
  email : String
  justification : String
  status : AppStatus
  reviewed_by : Option String
  reviewed_at : Option String
  admin_notes : Option String
  created_at : String
  updated_at : String
deriving DecidableEq

/-- Row of the `parking_locations` table (supabase.ts, `Database` type).
Coordinates are modelled over `Rat`. -/
structure ParkingLocation where
  id : String
  name : String
  address : String
  lat : Rat
  lng : Rat
  owner_user_id : String
  total_zones : Int
  description : Option String
  created_at : String
  updated_at : String
deriving DecidableEq

/-- Row of the `parking_zones` table (supabase.ts, `Database` type). -/
structure ParkingZone where
  id : String
  location_id : String
  name : String
  zone_number : Int
  lat : Rat
  lng : Rat
  total_slots : Int
  available_slots : Int
  is_full : Bool
  status : ZoneStatus
  cost_per_hour : Rat
  created_at : String
  updated_at : String
deriving DecidableEq

/-- The shared relational store (the four tables the core touches). -/
structure Store where
  profiles : List Profile
  owner_applications : List OwnerApplication
  parking_locations : List ParkingLocation
  parking_zones : List ParkingZone
deriving DecidableEq

/-! ## The decide operation: `process_owner_application`

Embedded from the plpgsql procedure in DEPLOYMENT_CHECKLIST.md.  A plpgsql
function body executes inside a single database transaction and a raised
exception aborts every update it made, so the procedure is embedded as one
step function: an error produces no post-state at all, and the single
successful post-state carries every update of the body. -/

/-- The two `RAISE EXCEPTION` outcomes of `process_owner_application`:
the reviewer is not a super admin, or no pending application with the
given id exists ("Application not found or already processed"). -/
inductive ProcError where
  | unauthorized
  | notFoundOrProcessed
deriving DecidableEq

/-- `process_owner_application(p_application_id, p_approve, p_admin_notes)`
run by `reviewer_id = auth.uid()` at time `now` (DEPLOYMENT_CHECKLIST.md). -/
def process_owner_application (s : Store) (reviewer_id : String)
    (p_application_id : String) (p_approve : Bool)
    (p_admin_notes : Option String) (now : String) :
    Except ProcError (Store × Bool) :=
  -- IF NOT EXISTS (SELECT 1 FROM profiles WHERE id = reviewer_id AND user_role = 'super_admin')
  if ¬ s.profiles.any (fun p => p.id = reviewer_id ∧ p.user_role = .super_admin) then
    .error .unauthorized
  else
    -- SELECT user_id INTO applicant_user_id FROM owner_applications
    --   WHERE id = p_application_id AND status = 'pending'
    match s.owner_applications.find?
        (fun a => a.id = p_application_id ∧ a.status = .pending) with
    | none => .error .notFoundOrProcessed
    | some app =>
      -- UPDATE owner_applications SET ... WHERE id = p_application_id
      let s₁ : Store :=
        { s with owner_applications := s.owner_applications.map (fun a =>
            if a.id = p_application_id then
              { a with
                status := if p_approve then .approved else .rejected
                reviewed_by := some reviewer_id
                reviewed_at := some now
                admin_notes := p_admin_notes
                updated_at := now }
            else a) }
      -- IF p_approve THEN UPDATE profiles SET user_role = 'location_owner' ...
      let s₂ : Store :=
        if p_approve then
          { s₁ with profiles := s₁.profiles.map (fun p =>
              if p.id = app.user_id then
                { p with user_role := .location_owner, updated_at := now }
              else p) }
        else s₁
      .ok (s₂, true)

/-- The store an observer reads after a call of the procedure: the
procedure's single transaction either commits (the returned store) or is
rolled back entirely (the pre-state). -/
def runProcessOwnerApplication (s : Store) (reviewer_id : String)
    (p_application_id : String) (p_approve : Bool)
    (p_admin_notes : Option String) (now : String) :
    Store × Except ProcError Bool :=
  match process_owner_application s reviewer_id p_application_id
      p_approve p_admin_notes now with
  | .ok (s', b) => (s', .ok b)
  | .error e => (s, .error e)

/-! ## Ownership cascade removal: `handleDeleteOwner`

Embedded from `SuperAdminDashboard.handleDeleteOwner`.  The source issues
two sequential awaited supabase calls with no transaction around them:
first `parking_locations.delete().eq('owner_user_id', ownerId)` (zones go
with their locations through the database's cascading foreign key), then
`profiles.update({user_role: 'user', updated_at: ...}).eq('id', ownerId)`.
Each call is one definition; the composite is their sequence, and the
store between the two calls is readable by every other session. -/

/-- First network call of `handleDeleteOwner`: delete every location with
`owner_user_id = ownerId`; the store's cascading foreign key deletes every
zone whose `location_id` is one of the deleted locations. -/
def deleteOwnerLocations (s : Store) (ownerId : String) : Store :=
  let deletedIds :=
    (s.parking_locations.filter (fun l => l.owner_user_id = ownerId)).map
      (fun l => l.id)
  { s with
    parking_locations :=
      s.parking_locations.filter (fun l => ¬ l.owner_user_id = ownerId)
    parking_zones :=
      s.parking_zones.filter (fun z => z.location_id ∉ deletedIds) }

/-- Second network call of `handleDeleteOwner`: downgrade the profile row
with `id = ownerId` to role `user`, touching only `user_role` and
`updated_at`. -/
def downgradeOwnerRole (s : Store) (ownerId : String) (now : String) : Store :=
  { s with profiles := s.profiles.map (fun p =>
      if p.id = ownerId then { p with user_role := .user, updated_at := now }
      else p) }

/-- `handleDeleteOwner` (SuperAdminDashboard): the sequence of the two
calls. -/
def handleDeleteOwner (s : Store) (ownerId : String) (now : String) : Store :=
  downgradeOwnerRole (deleteOwnerLocations s ownerId) ownerId now

/-! ## Zone save: `handleSaveZone` (Dashboard.tsx) -/

/-- A JavaScript `number`-typed form field as it can actually be at the
validation site: absent (`null`/`undefined`), not a number (`NaN`), or a
numeric value. -/
inductive JSNumber where
  | noValue
  | notANumber
  | num (q : Rat)
deriving DecidableEq

/-- `v == null || isNaN(v)` — the coordinate rejection test of
`handleSaveZone`. -/
def JSNumber.isMissing : JSNumber → Bool
  | .noValue => true
  | .notANumber => true
  | .num _ => false

/-- The `!s.trim()` test of the source: a string fails JavaScript's
truthiness after trimming exactly when every character is whitespace. -/
def isBlank (s : String) : Bool :=
  s.data.all Char.isWhitespace

/-- The `zoneForm` state of Dashboard.tsx. -/
structure ZoneForm where
  name : String
  zone_number : Int
  cost_per_hour : Rat
  total_slots : Int
  lat : JSNumber
  lng : JSNumber
deriving DecidableEq

/-- The `editingZone` state of Dashboard.tsx:
`{ locationId: string; zone?: ParkingZone }`. -/
structure EditingZone where
  locationId : String
  zone : Option ParkingZone
deriving DecidableEq

/-- Outcome of `handleSaveZone`: an early validation return (the toast
message) before any write, or the store after the single issued write. -/
inductive SaveZoneResult where
  | validationError (msg : String)
  | saved (s : Store)
deriving DecidableEq

/-- `handleSaveZone` (Dashboard.tsx): the validation chain, then either
the update of the edited zone or the insert of a new zone row (the insert
leaves `is_full`, `status`, `created_at` to the store's defaults and the
id to the store's generator, passed here as `newId`). -/
def handleSaveZone (s : Store) (editing : EditingZone) (form : ZoneForm)
    (newId : String) (now : String) : SaveZoneResult :=
  if isBlank form.name then
    .validationError "Please enter a zone name"
  else if form.zone_number < 1 then
    .validationError "Zone number must be at least 1"
  else if form.cost_per_hour < 0 then
    .validationError "Cost per hour cannot be negative"
  else if form.total_slots < 1 then
    .validationError "Total slots must be at least 1"
  else if form.lat.isMissing ∨ form.lng.isMissing then
    .validationError "Please provide valid latitude and longitude for the zone"
  else
    match form.lat, form.lng with
    | .num a, .num b =>
      if a = 0 ∧ b = 0 then
        .validationError "Zone coordinates cannot be 0,0"
      else
        match editing.zone with
        | some zone =>
          -- update existing zone (available_slots is not written)
          .saved { s with parking_zones := s.parking_zones.map (fun z =>
              if z.id = zone.id then
                { z with
                  name := form.name
                  zone_number := form.zone_number
                  lat := a
                  lng := b
                  cost_per_hour := form.cost_per_hour
                  total_slots := form.total_slots
                  updated_at := now }
              else z) }
        | none =>
          -- create new zone: available_slots starts at total_slots
          .saved { s with parking_zones := s.parking_zones ++
              [{ id := newId
                 location_id := editing.locationId
                 name := form.name
                 zone_number := form.zone_number
                 lat := a
                 lng := b
                 total_slots := form.total_slots
                 available_slots := form.total_slots
                 is_full := false
                 status := .available
                 cost_per_hour := form.cost_per_hour
                 created_at := now
                 updated_at := now }] }
    | _, _ =>
      .validationError "Please provide valid latitude and longitude for the zone"

/-- The store an observer reads after `handleSaveZone`: an early
validation return issues no write at all, so the store is the pre-state. -/
def storeAfterSaveZone (s : Store) (r : SaveZoneResult) : Store :=
  match r with
  | .validationError _ => s
  | .saved s' => s'

/-! ## Application submission: `OwnerApplicationButton` (submitApplication) -/

/-- The application form state of `OwnerApplicationButton`. -/
structure ApplicationForm where
  contact_person : String
  phone : String
  email : String
  justification : String
deriving DecidableEq

/-- Outcome of `submitApplication`: early return without a user, the
"Please fill all fields" validation return, or the store after the
unconditional insert of a fresh `pending` row. -/
inductive SubmitResult where
  | noUser
  | emptyField
  | inserted (s : Store)
deriving DecidableEq

/-- The `owner_applications` row inserted by `submitApplication`: the
four form fields plus the store defaults (`status = 'pending'`, review
fields null). -/
def insertedApplication (uid : String) (form : ApplicationForm)
    (newId : String) (now : String) : OwnerApplication :=
  { id := newId
    user_id := uid
    contact_person := form.contact_person
    phone := form.phone
    email := form.email
    justification := form.justification
    status := .pending
    reviewed_by := none
    reviewed_at := none
    admin_notes := none
    created_at := now
    updated_at := now }

/-- `submitApplication` (OwnerApplicationButton): validates only that the
four form fields are non-empty, then inserts a new `owner_applications`
row with default `status = 'pending'`.  No check against existing
applications is performed here. -/
def submitApplication (s : Store) (userId : Option String)
    (form : ApplicationForm) (newId : String) (now : String) : SubmitResult :=
  match userId with
  | none => .noUser
  | some uid =>
    if form.contact_person = "" ∨ form.phone = "" ∨ form.email = "" ∨
        form.justification = "" then
      .emptyField
    else
      .inserted { s with owner_applications := s.owner_applications ++
          [insertedApplication uid form newId now] }

/-- The latest of a list of application rows by `created_at` (the
`order('created_at', descending).limit(1)` read). -/
def latestApplication : List OwnerApplication → Option OwnerApplication
  | [] => none
  | a :: rest =>
    match latestApplication rest with
    | none => some a
    | some b => if a.created_at < b.created_at then some b else some a

/-- `checkExistingApplication` (OwnerApplicationButton): the user's most
recent application of any status, or `none`. -/
def checkExistingApplication (s : Store) (uid : String) :
    Option OwnerApplication :=
  latestApplication (s.owner_applications.filter (fun a => a.user_id = uid))

/-- What `OwnerApplicationButton` renders. -/
inductive OwnerApplicationView where
  | nothingRendered
  | statusCard (app : OwnerApplication)
  | applicationForm
  | applyPrompt
deriving DecidableEq

/-- The render branch of `OwnerApplicationButton`: no user renders
nothing; an existing application (any status) renders the status card —
the submission form is unreachable; otherwise the form or the apply
prompt. -/
def ownerApplicationButtonView (userId : Option String)
    (application : Option OwnerApplication) (showForm : Bool) :
    OwnerApplicationView :=
  match userId with
  | none => .nothingRendered
  | some _ =>
    match application with
    | some app => .statusCard app
    | none => if showForm then .applicationForm else .applyPrompt

/-! ## Authorization guards -/

/-- The capabilities of the authorization policy. -/
inductive Capability where
  | manage_own_locations
  | manage_all_locations
  | review_applications
  | view_map
deriving DecidableEq

/-- The `OwnerRoute` guard (OwnerRoute.tsx line 30): the owner dashboard
renders only for `location_owner` or `super_admin`. -/
def ownerRouteAllows (role : Role) : Bool :=
  ¬ (role ≠ Role.location_owner ∧ role ≠ Role.super_admin)

/-- The `AdminRequestsPanel.fetchRequests` guard (line 59): applications
are fetched for review only when the caller's profile role is
`super_admin`. -/
def adminRequestsPanelAllows (role : Role) : Bool :=
  role = Role.super_admin

/-- Modelled from the spec: the `SuperAdminRoute` guard component (the
route to the all-locations super-admin dashboard) is imported by App.tsx
but its source is not in the repository snapshot; the spec grants
`manage_all_locations` to `super_admin` only. -/
def superAdminRouteAllows (role : Role) : Bool :=
  role = Role.super_admin

/-- Modelled from the spec: the `ProtectedRoute` guard component (the map
route) is imported by App.tsx but its source is not in the repository
snapshot; the spec grants `view_map` to any authenticated role. -/
def protectedRouteAllows (_role : Role) : Bool :=
  true

/-- The authorization decision `can(role, capability)`: each capability's
decision is the guard of the component enforcing it. -/
def can (role : Role) : Capability → Bool
  | .manage_own_locations => ownerRouteAllows role
  | .manage_all_locations => superAdminRouteAllows role
  | .review_applications => adminRequestsPanelAllows role
  | .view_map => protectedRouteAllows role

/-! ## Zone availability aggregator (MapView.fetchLocationsWithZones) -/

/-- `totalSlots` of a location: `zones.reduce((sum, z) => sum + (z.total_slots || 0), 0)`.
A null-ish `total_slots` contributes 0, which over `Int` is addition of
the field itself. -/
def locationTotalSlots (zones : List ParkingZone) : Int :=
  zones.foldl (fun sum z => sum + z.total_slots) 0

/-- `availableSlots` of a location:
`zones.reduce((sum, z) => sum + (z.available_slots || 0), 0)`. -/
def locationAvailableSlots (zones : List ParkingZone) : Int :=
  zones.foldl (fun sum z => sum + z.available_slots) 0

/-- `occupancyPercentage` of a location:
`totalSlots > 0 ? ((totalSlots - availableSlots) / totalSlots) * 100 : 0`. -/
def occupancyPercentage (zones : List ParkingZone) : Rat :=
  let t := locationTotalSlots zones
  let a := locationAvailableSlots zones
  if 0 < t then ((t - a : Rat) / (t : Rat)) * 100 else 0

/-! ## Concrete sample data (for witnesses and counterexamples) -/

/-- A super-admin profile. -/
def pAdmin : Profile :=
  { id := "admin1", email := some "admin@park.com", full_name := some "Admin"
    phone := none, avatar_url := none, user_role := .super_admin
    created_at := "2026-01-01", updated_at := "2026-01-01" }

/-- A regular user with a pending owner application. -/
def pApplicant : Profile :=
  { id := "u1", email := some "u1@park.com", full_name := some "User One"
    phone := some "111", avatar_url := none, user_role := .user
    created_at := "2026-01-02", updated_at := "2026-01-02" }

/-- A location owner. -/
def pOwner : Profile :=
  { id := "o1", email := some "o1@park.com", full_name := some "Owner One"
    phone := none, avatar_url := none, user_role := .location_owner
    created_at := "2026-01-03", updated_at := "2026-01-03" }

/-- The pending application of `pApplicant`. -/
def appPending : OwnerApplication :=
  { id := "a1", user_id := "u1", contact_person := "User One", phone := "111"
    email := "u1@park.com", justification := "I run a lot"
    status := .pending, reviewed_by := none, reviewed_at := none
    admin_notes := none, created_at := "2026-01-05", updated_at := "2026-01-05" }

/-- A location owned by `pOwner`. -/
def loc1 : ParkingLocation :=
  { id := "L1", name := "Central", address := "1 Main St", lat := 12, lng := 77
    owner_user_id := "o1", total_zones := 1, description := none
    created_at := "2026-01-04", updated_at := "2026-01-04" }

/-- A zone of `loc1`, created fully available (50 of 50 slots). -/
def zone1 : ParkingZone :=
  { id := "Z1", location_id := "L1", name := "Zone A", zone_number := 1
    lat := 12, lng := 77, total_slots := 50, available_slots := 50
    is_full := false, status := .available, cost_per_hour := 15
    created_at := "2026-01-04", updated_at := "2026-01-04" }

/-- The base sample store. -/
def baseStore : Store :=
  { profiles := [pAdmin, pApplicant, pOwner]
    owner_applications := [appPending]
    parking_locations := [loc1]
    parking_zones := [zone1] }

/-! ## Helper lemmas -/

/-- A fold of repeated addition equals the sum of the mapped list. -/
theorem foldl_add_eq_map_sum (f : ParkingZone → Int) (zones : List ParkingZone) :
    zones.foldl (fun sum z => sum + f z) 0 = (zones.map f).sum := by
  rw [List.sum_eq_foldl, List.foldl_map]

/-- `latestApplication` of a non-empty list returns a row. -/
theorem latestApplication_isSome (l : List OwnerApplication) (hl : l ≠ []) :
    ∃ a, latestApplication l = some a := by
  cases l with
  | nil => exact absurd rfl hl
  | cons a rest =>
    simp only [latestApplication]
    cases latestApplication rest with
    | none => exact ⟨a, rfl⟩
    | some b =>
      by_cases hc : a.created_at < b.created_at
      · exact ⟨b, by simp [hc]⟩
      · exact ⟨a, by simp [hc]⟩

/-! ## Claims -/

/-- C6: the authorization decision `can(r, capability)` grants
`manage_own_locations` exactly for `location_owner` and `super_admin`, and
grants `review_applications` and `manage_all_locations` exactly for
`super_admin`; every other pair among these is denied. -/
theorem can_decision_characterized (r : Role) :
    (can r .manage_own_locations = true ↔
      (r = Role.location_owner ∨ r = Role.super_admin)) ∧
    (can r .review_applications = true ↔ r = Role.super_admin) ∧
    (can r .manage_all_locations = true ↔ r = Role.super_admin) := by
  cases r <;>
    simp [can, ownerRouteAllows, adminRequestsPanelAllows, superAdminRouteAllows]

/-- C7: for every finite set of zones of a location, the derived
statistics equal `totalSlots = Σ total_slots`,
`availableSlots = Σ available_slots`, and `occupancyPercentage =
(totalSlots - availableSlots) / totalSlots * 100` when `totalSlots > 0`
and `0` when `totalSlots = 0`. -/
theorem locationStats_correct (zones : List ParkingZone) :
    locationTotalSlots zones = (zones.map (fun z => z.total_slots)).sum ∧
    locationAvailableSlots zones = (zones.map (fun z => z.available_slots)).sum ∧
    occupancyPercentage zones =
      (if 0 < (zones.map (fun z => z.total_slots)).sum then
        (((((zones.map (fun z => z.total_slots)).sum : Int) : Rat) -
            ((((zones.map (fun z => z.available_slots)).sum : Int) : Rat))) /
          ((((zones.map (fun z => z.total_slots)).sum : Int) : Rat))) * 100
      else 0) := by
  refine ⟨foldl_add_eq_map_sum _ zones, foldl_add_eq_map_sum _ zones, ?_⟩
  simp only [occupancyPercentage, locationTotalSlots, locationAvailableSlots,
    foldl_add_eq_map_sum]

/-- C8: every attempt to create or save a zone whose `lat` or `lng` is
missing (null or not a number) is rejected by the validation chain of
`handleSaveZone` before any write is issued: the result is a validation
error and the store is unchanged. -/
theorem saveZone_missing_coords_rejected (s : Store) (editing : EditingZone)
    (form : ZoneForm) (newId now : String)
    (h : form.lat.isMissing = true ∨ form.lng.isMissing = true) :
    (∃ msg, handleSaveZone s editing form newId now = .validationError msg) ∧
    storeAfterSaveZone s (handleSaveZone s editing form newId now) = s := by
  have hrej : ∃ msg, handleSaveZone s editing form newId now =
      .validationError msg := by
    unfold handleSaveZone
    split_ifs with h1 h2 h3 h4
    all_goals exact ⟨_, rfl⟩
  obtain ⟨msg, hmsg⟩ := hrej
  refine ⟨⟨msg, hmsg⟩, ?_⟩
  rw [hmsg]
  rfl

/-- A zone form with a missing latitude. -/
def formNoLat : ZoneForm :=
  { name := "Zone B", zone_number := 2, cost_per_hour := 15, total_slots := 40
    lat := .noValue, lng := .num 77 }

/-- Witness for C8: the concrete create attempt without a latitude is
rejected and the base store is untouched. -/
theorem saveZone_missing_coords_rejected_witness :
    (∃ msg, handleSaveZone baseStore ⟨"L1", none⟩ formNoLat "Z9" "t9" =
      .validationError msg) ∧
    storeAfterSaveZone baseStore
      (handleSaveZone baseStore ⟨"L1", none⟩ formNoLat "Z9" "t9") = baseStore :=
  saveZone_missing_coords_rejected baseStore ⟨"L1", none⟩ formNoLat "Z9" "t9"
    (Or.inl (by decide))

/-- C9: every zone created through the create branch of `handleSaveZone`
is appended as a row whose `available_slots` equals `total_slots`; with
the `total_slots ≥ 1` validation this establishes
`0 ≤ available_slots ≤ total_slots` at creation time. -/
theorem createZone_starts_full (s : Store) (editing : EditingZone)
    (hz : editing.zone = none) (form : ZoneForm) (newId now : String)
    (s' : Store) (h : handleSaveZone s editing form newId now = .saved s') :
    ∃ z : ParkingZone, s'.parking_zones = s.parking_zones ++ [z] ∧
      z.available_slots = z.total_slots ∧
      0 ≤ z.available_slots ∧ z.available_slots ≤ z.total_slots := by
  unfold handleSaveZone at h
  split_ifs at h with h1 h2 h3 h4 h5
  cases hlat : form.lat with
  | noValue => rw [hlat] at h5; exact absurd (Or.inl rfl) h5
  | notANumber => rw [hlat] at h5; exact absurd (Or.inl rfl) h5
  | num a =>
    cases hlng : form.lng with
    | noValue => rw [hlng] at h5; exact absurd (Or.inr rfl) h5
    | notANumber => rw [hlng] at h5; exact absurd (Or.inr rfl) h5
    | num b =>
      rw [hlat, hlng, hz] at h
      dsimp only at h
      split_ifs at h
      injection h with h'
      refine ⟨_, by rw [← h'], rfl, ?_, le_refl _⟩
      show (0 : Int) ≤ form.total_slots
      omega

/-- A fully valid zone form for the create branch. -/
def formCreate : ZoneForm :=
  { name := "Zone C", zone_number := 3, cost_per_hour := 20, total_slots := 30
    lat := .num 13, lng := .num 78 }

/-- The store produced by the concrete create call of `handleSaveZone`. -/
def createdStore : Store :=
  storeAfterSaveZone baseStore
    (handleSaveZone baseStore ⟨"L1", none⟩ formCreate "Z2" "t2")

/-- Witness for C9: the concrete create call appends one fully available
zone row. -/
theorem createZone_starts_full_witness :
    ∃ z : ParkingZone, createdStore.parking_zones =
        baseStore.parking_zones ++ [z] ∧
      z.available_slots = z.total_slots ∧
      0 ≤ z.available_slots ∧ z.available_slots ≤ z.total_slots :=
  createZone_starts_full baseStore ⟨"L1", none⟩ rfl formCreate "Z2" "t2"
    createdStore (by decide)

/-- C10: the profile update of `handleDeleteOwner` writes only the
`user_role` and `updated_at` fields: every profile keeps its `id`,
`email`, `full_name`, `phone`, `avatar_url` and `created_at`, profiles
other than the removed owner's are untouched, and no profile row is
created or deleted. -/
theorem deleteOwner_profile_frame (s : Store) (ownerId now : String) :
    (handleDeleteOwner s ownerId now).profiles.length = s.profiles.length ∧
    ∀ p ∈ s.profiles, ∃ p' ∈ (handleDeleteOwner s ownerId now).profiles,
      p'.id = p.id ∧ p'.email = p.email ∧ p'.full_name = p.full_name ∧
      p'.phone = p.phone ∧ p'.avatar_url = p.avatar_url ∧
      p'.created_at = p.created_at ∧
      (p.id ≠ ownerId → p' = p) ∧
      (p.id = ownerId → p'.user_role = Role.user ∧ p'.updated_at = now) := by
  have hprof : (handleDeleteOwner s ownerId now).profiles =
      s.profiles.map (fun p =>
        if p.id = ownerId then { p with user_role := .user, updated_at := now }
        else p) := rfl
  constructor
  · rw [hprof, List.length_map]
  · intro p hp
    refine ⟨if p.id = ownerId then
        { p with user_role := .user, updated_at := now } else p,
      by rw [hprof]; exact List.mem_map_of_mem _ hp, ?_⟩
    by_cases hid : p.id = ownerId
    · simp [hid]
    · simp [hid]

/-- Witness for C10: the removed owner's concrete profile keeps all its
display fields, and only `user_role` and `updated_at` change. -/
theorem deleteOwner_profile_frame_witness :
    ∃ p' ∈ (handleDeleteOwner baseStore "o1" "t1").profiles,
      p'.id = pOwner.id ∧ p'.email = pOwner.email ∧
      p'.full_name = pOwner.full_name ∧ p'.phone = pOwner.phone ∧
      p'.avatar_url = pOwner.avatar_url ∧ p'.created_at = pOwner.created_at ∧
      (pOwner.id ≠ "o1" → p' = pOwner) ∧
      (pOwner.id = "o1" → p'.user_role = Role.user ∧ p'.updated_at = "t1") :=
  (deleteOwner_profile_frame baseStore "o1" "t1").2 pOwner (by decide)

/-! ### C2: the cascade is two separate calls, not one unit -/

/-- The store after the first of the two network calls of
`handleDeleteOwner` on `baseStore`: exactly what every other session reads
between the locations delete and the profile update. -/
def midCascadeStore : Store :=
  deleteOwnerLocations baseStore "o1"

/-- C2 (refuting evaluation): `handleDeleteOwner` is the sequence of two
separate store calls, and between them the store already holds no
location and no zone of owner `o1` while `o1`'s profile still has role
`location_owner` — an intermediate state the claim says no actor can
read. -/
theorem deleteOwner_intermediate_state_observable :
    handleDeleteOwner baseStore "o1" "t1" =
      downgradeOwnerRole midCascadeStore "o1" "t1" ∧
    midCascadeStore.parking_locations.filter
      (fun l => l.owner_user_id = "o1") = [] ∧
    midCascadeStore.parking_zones.filter
      (fun z => z.location_id = "L1") = [] ∧
    pOwner ∈ midCascadeStore.profiles ∧
    pOwner.id = "o1" ∧
    pOwner.user_role = Role.location_owner := by
  refine ⟨rfl, ?_, ?_, ?_, rfl, rfl⟩ <;> decide

/-! ### C4: the update branch can break the slots invariant -/

/-- The form of an update of `zone1` that lowers `total_slots` to 10
while the stored `available_slots` is 50; it passes every validation of
`handleSaveZone`. -/
def shrinkForm : ZoneForm :=
  { name := "Zone A", zone_number := 1, cost_per_hour := 15, total_slots := 10
    lat := .num 12, lng := .num 77 }

/-- The result of the violating update call. -/
def shrinkResult : SaveZoneResult :=
  handleSaveZone baseStore ⟨"L1", some zone1⟩ shrinkForm "Zx" "t3"

/-- The zone row stored by the violating update. -/
def zone1Shrunk : ParkingZone :=
  { zone1 with total_slots := 10, updated_at := "t3" }

/-- C4 (refuting evaluation): starting from a stored zone satisfying
`0 ≤ available_slots ≤ total_slots`, the update branch of
`handleSaveZone` accepts a `total_slots` below the stored
`available_slots` and writes it: the write is not rejected and the stored
zone ends with `available_slots = 50 > total_slots = 10`. -/
theorem updateZone_breaks_slots_invariant :
    zone1 ∈ baseStore.parking_zones ∧
    0 ≤ zone1.available_slots ∧ zone1.available_slots ≤ zone1.total_slots ∧
    shrinkResult = .saved (storeAfterSaveZone baseStore shrinkResult) ∧
    zone1Shrunk ∈ (storeAfterSaveZone baseStore shrinkResult).parking_zones ∧
    zone1Shrunk.total_slots < zone1Shrunk.available_slots := by
  refine ⟨?_, ?_, ?_, ?_, ?_, ?_⟩ <;> decide

/-! ### C5: submitApplication performs no duplicate check -/

/-- The filled form of a second application by `pApplicant`. -/
def dupForm : ApplicationForm :=
  { contact_person := "User One", phone := "111", email := "u1@park.com"
    justification := "one more" }

/-- The row inserted by the duplicate submission. -/
def appDup : OwnerApplication :=
  { id := "a2", user_id := "u1", contact_person := "User One", phone := "111"
    email := "u1@park.com", justification := "one more", status := .pending
    reviewed_by := none, reviewed_at := none, admin_notes := none
    created_at := "2026-01-06", updated_at := "2026-01-06" }

/-- C5 (counterexample): with a pending application for `u1` already
stored, `submitApplication` for `u1` does not fail — it inserts a second
row, after which two pending applications for `u1` exist. -/
theorem submitApplication_no_duplicate_rejection :
    appPending ∈ baseStore.owner_applications ∧
    appPending.user_id = "u1" ∧ appPending.status = AppStatus.pending ∧
    submitApplication baseStore (some "u1") dupForm "a2" "2026-01-06" =
      .inserted { baseStore with
        owner_applications := baseStore.owner_applications ++ [appDup] } ∧
    ((baseStore.owner_applications ++ [appDup]).filter
      (fun a => a.user_id = "u1" ∧ a.status = .pending)).length = 2 := by
  refine ⟨?_, rfl, rfl, ?_, ?_⟩ <;> decide

/-- C5 (amended): for a user with an existing application, the
`OwnerApplicationButton` component renders the status card — the
submission form is unreachable through the UI — while the
`submitApplication` function itself performs no duplicate check and, when
invoked with a fully filled form, succeeds and appends a second `pending`
row for that user. -/
theorem submit_duplicate_guard_amended (s : Store) (uid : String)
    (a : OwnerApplication) (ha : a ∈ s.owner_applications)
    (hau : a.user_id = uid)
    (form : ApplicationForm) (newId now : String)
    (hcp : form.contact_person ≠ "") (hph : form.phone ≠ "")
    (hem : form.email ≠ "") (hj : form.justification ≠ "") :
    (∀ showForm : Bool, ∃ app, checkExistingApplication s uid = some app ∧
      ownerApplicationButtonView (some uid) (checkExistingApplication s uid)
        showForm = .statusCard app) ∧
    (∃ newRow, submitApplication s (some uid) form newId now =
        .inserted { s with
          owner_applications := s.owner_applications ++ [newRow] } ∧
      newRow.user_id = uid ∧ newRow.status = AppStatus.pending) := by
  constructor
  · intro showForm
    have hne : s.owner_applications.filter (fun x => x.user_id = uid) ≠ [] := by
      apply List.ne_nil_of_mem (a := a)
      rw [List.mem_filter]
      exact ⟨ha, by simp [hau]⟩
    obtain ⟨app, happ⟩ :=
      latestApplication_isSome (s.owner_applications.filter
        (fun x => x.user_id = uid)) hne
    have hch : checkExistingApplication s uid = some app := happ
    rw [hch]
    exact ⟨app, rfl, rfl⟩
  · refine ⟨insertedApplication uid form newId now, ?_, rfl, rfl⟩
    unfold submitApplication
    dsimp only
    rw [if_neg]
    push_neg
    exact ⟨hcp, hph, hem, hj⟩

/-- Witness for the amended C5: concretely, `u1`'s existing pending
application makes the UI render the status card, and the function call
still inserts the second pending row. -/
theorem submit_duplicate_guard_amended_witness :
    (∀ showForm : Bool, ∃ app,
      checkExistingApplication baseStore "u1" = some app ∧
      ownerApplicationButtonView (some "u1")
        (checkExistingApplication baseStore "u1") showForm =
          .statusCard app) ∧
    (∃ newRow, submitApplication baseStore (some "u1") dupForm "a2"
        "2026-01-06" =
        .inserted { baseStore with
          owner_applications := baseStore.owner_applications ++ [newRow] } ∧
      newRow.user_id = "u1" ∧ newRow.status = AppStatus.pending) :=
  submit_duplicate_guard_amended baseStore "u1" appPending (by decide) rfl
    dupForm "a2" "2026-01-06" (by decide) (by decide) (by decide) (by decide)

/-! ### C3: cascade postcondition and idempotence -/

/-- C3: after `handleDeleteOwner(ownerId)` no location of `ownerId` and
no zone under such a location remains; the profile rows (their ids) are
all preserved — the owner's profile is downgraded to role `user`, never
deleted; and re-running the removal on the already-removed owner is a
no-op. -/
theorem removeOwner_postcondition (s : Store) (ownerId now : String) :
    (∀ l ∈ (handleDeleteOwner s ownerId now).parking_locations,
      l.owner_user_id ≠ ownerId) ∧
    (∀ z ∈ (handleDeleteOwner s ownerId now).parking_zones,
      ∀ l ∈ s.parking_locations, l.owner_user_id = ownerId →
        z.location_id ≠ l.id) ∧
    (handleDeleteOwner s ownerId now).profiles.map Profile.id =
      s.profiles.map Profile.id ∧
    (∀ p ∈ (handleDeleteOwner s ownerId now).profiles,
      p.id = ownerId → p.user_role = Role.user) ∧
    handleDeleteOwner (handleDeleteOwner s ownerId now) ownerId now =
      handleDeleteOwner s ownerId now := by
  obtain ⟨P, A, L, Z⟩ := s
  refine ⟨?_, ?_, ?_, ?_, ?_⟩
  · intro l hl
    have h := (List.mem_filter.1 hl).2
    simpa using h
  · intro z hz l hl hown heq
    have h := (List.mem_filter.1 hz).2
    rw [decide_eq_true_eq] at h
    apply h
    rw [heq]
    exact List.mem_map_of_mem _
      (List.mem_filter.2 ⟨hl, decide_eq_true hown⟩)
  · show (P.map _).map Profile.id = P.map Profile.id
    rw [List.map_map]
    apply List.map_congr_left
    intro p _
    by_cases h : p.id = ownerId <;> simp [h]
  · intro p hp hid
    obtain ⟨p₀, hp₀, rfl⟩ := List.mem_map.1 hp
    by_cases h : p₀.id = ownerId
    · simp [h]
    · rw [if_neg h] at hid ⊢
      exact absurd hid h
  · have hL : (L.filter (fun l => decide ¬ l.owner_user_id = ownerId)).filter
        (fun l => decide ¬ l.owner_user_id = ownerId) =
        L.filter (fun l => decide ¬ l.owner_user_id = ownerId) :=
      List.filter_eq_self.2 (fun a ha => (List.mem_filter.1 ha).2)
    have hdel : (L.filter (fun l => decide ¬ l.owner_user_id = ownerId)).filter
        (fun l => l.owner_user_id = ownerId) = [] := by
      rw [List.filter_eq_nil_iff]
      intro a ha
      have h := (List.mem_filter.1 ha).2
      simpa using h
    simp only [handleDeleteOwner, downgradeOwnerRole, deleteOwnerLocations,
      Store.mk.injEq]
    refine ⟨?_, trivial, ?_, ?_⟩
    · rw [List.map_map]
      apply List.map_congr_left
      intro p _
      by_cases h : p.id = ownerId <;> simp [h]
    · exact hL
    · simp only [hdel, List.map_nil]
      apply List.filter_eq_self.2
      intro a _
      simp

/-- The owner profile after the concrete removal. -/
def pOwnerDowngraded : Profile :=
  { pOwner with user_role := .user, updated_at := "t1" }

/-- Witness for C3: on the base store, the removal keeps every profile
id, leaves the owner's profile with role `user`, and is idempotent. -/
theorem removeOwner_postcondition_witness :
    (handleDeleteOwner baseStore "o1" "t1").profiles.map Profile.id =
      baseStore.profiles.map Profile.id ∧
    pOwnerDowngraded.user_role = Role.user ∧
    handleDeleteOwner (handleDeleteOwner baseStore "o1" "t1") "o1" "t1" =
      handleDeleteOwner baseStore "o1" "t1" := by
  have h := removeOwner_postcondition baseStore "o1" "t1"
  exact ⟨h.2.2.1, h.2.2.2.1 pOwnerDowngraded (by decide) (by decide),
    h.2.2.2.2⟩

/-! ### C1: atomicity of the decide operation -/

/-- C1: the decide procedure is one indivisible step.  In the store an
observer reads after any call of `process_owner_application`: on an error
nothing changed; on success the decided application was pending, and if
it was approved then both the application's `approved` status and the
applicant's `location_owner` role are visible together, while a rejection
leaves every profile (and the other tables) untouched, changing only the
application row. -/
theorem processApplication_atomic (s : Store) (reviewer aid : String)
    (approve : Bool) (notes : Option String) (now : String) :
    (∀ e, (runProcessOwnerApplication s reviewer aid approve notes now).2 =
        .error e →
      (runProcessOwnerApplication s reviewer aid approve notes now).1 = s) ∧
    (∀ b, (runProcessOwnerApplication s reviewer aid approve notes now).2 =
        .ok b →
      ∃ app ∈ s.owner_applications, app.id = aid ∧
        app.status = AppStatus.pending ∧
        (approve = true →
          (∀ a ∈ (runProcessOwnerApplication s reviewer aid approve notes
              now).1.owner_applications,
            a.id = aid → a.status = AppStatus.approved) ∧
          (∀ p ∈ (runProcessOwnerApplication s reviewer aid approve notes
              now).1.profiles,
            p.id = app.user_id → p.user_role = Role.location_owner)) ∧
        (approve = false →
          (∀ a ∈ (runProcessOwnerApplication s reviewer aid approve notes
              now).1.owner_applications,
            a.id = aid → a.status = AppStatus.rejected) ∧
          (∀ a ∈ (runProcessOwnerApplication s reviewer aid approve notes
              now).1.owner_applications,
            a.id ≠ aid → a ∈ s.owner_applications) ∧
          (runProcessOwnerApplication s reviewer aid approve notes
            now).1.profiles = s.profiles ∧
          (runProcessOwnerApplication s reviewer aid approve notes
            now).1.parking_locations = s.parking_locations ∧
          (runProcessOwnerApplication s reviewer aid approve notes
            now).1.parking_zones = s.parking_zones)) := by
  cases approve with
  | true =>
    cases hp : process_owner_application s reviewer aid true notes now with
    | error e =>
      have hrun : runProcessOwnerApplication s reviewer aid true notes now =
          (s, .error e) := by
        unfold runProcessOwnerApplication
        rw [hp]
      rw [hrun]
      exact ⟨fun _ _ => rfl, fun b hb => Except.noConfusion hb⟩
    | ok out =>
      obtain ⟨s', b₀⟩ := out
      have hrun : runProcessOwnerApplication s reviewer aid true notes now =
          (s', .ok b₀) := by
        unfold runProcessOwnerApplication
        rw [hp]
      rw [hrun]
      refine ⟨fun e he => Except.noConfusion he, fun b _ => ?_⟩
      unfold process_owner_application at hp
      simp only [eq_self_iff_true, if_true] at hp
      split_ifs at hp with hauth
      cases hfind : s.owner_applications.find?
          (fun a => a.id = aid ∧ a.status = AppStatus.pending) with
      | none => rw [hfind] at hp; exact Except.noConfusion hp
      | some app =>
        rw [hfind] at hp
        have hpred := List.find?_some hfind
        simp only [decide_eq_true_eq] at hpred
        injection hp with hpair
        injection hpair with hs hb₀
        subst hs
        refine ⟨app, List.mem_of_find?_eq_some hfind, hpred.1, hpred.2,
          fun _ => ⟨?_, ?_⟩, fun hcontra => Bool.noConfusion hcontra⟩
        · intro a ha haid
          obtain ⟨a₀, _, rfl⟩ := List.mem_map.1 ha
          by_cases h : a₀.id = aid
          · simp [h]
          · rw [if_neg h] at haid ⊢
            exact absurd haid h
        · intro p hps hpid
          obtain ⟨p₀, _, rfl⟩ := List.mem_map.1 hps
          by_cases h : p₀.id = app.user_id
          · simp [h]
          · rw [if_neg h] at hpid ⊢
            exact absurd hpid h
  | false =>
    cases hp : process_owner_application s reviewer aid false notes now with
    | error e =>
      have hrun : runProcessOwnerApplication s reviewer aid false notes now =
          (s, .error e) := by
        unfold runProcessOwnerApplication
        rw [hp]
      rw [hrun]
      exact ⟨fun _ _ => rfl, fun b hb => Except.noConfusion hb⟩
    | ok out =>
      obtain ⟨s', b₀⟩ := out
      have hrun : runProcessOwnerApplication s reviewer aid false notes now =
          (s', .ok b₀) := by
        unfold runProcessOwnerApplication
        rw [hp]
      rw [hrun]
      refine ⟨fun e he => Except.noConfusion he, fun b _ => ?_⟩
      unfold process_owner_application at hp
      simp only [Bool.false_eq_true, if_false] at hp
      split_ifs at hp with hauth
      cases hfind : s.owner_applications.find?
          (fun a => a.id = aid ∧ a.status = AppStatus.pending) with
      | none => rw [hfind] at hp; exact Except.noConfusion hp
      | some app =>
        rw [hfind] at hp
        have hpred := List.find?_some hfind
        simp only [decide_eq_true_eq] at hpred
        injection hp with hpair
        injection hpair with hs hb₀
        subst hs
        refine ⟨app, List.mem_of_find?_eq_some hfind, hpred.1, hpred.2,
          fun hcontra => Bool.noConfusion hcontra,
          fun _ => ⟨?_, ?_, rfl, rfl, rfl⟩⟩
        · intro a ha haid
          obtain ⟨a₀, _, rfl⟩ := List.mem_map.1 ha
          by_cases h : a₀.id = aid
          · simp [h]
          · rw [if_neg h] at haid ⊢
            exact absurd haid h
        · intro a ha haid
          obtain ⟨a₀, ha₀, rfl⟩ := List.mem_map.1 ha
          by_cases h : a₀.id = aid
          · rw [if_pos h] at haid
            exact absurd h haid
          · rw [if_neg h]
            exact ha₀

/-- The store after the concrete approval of `appPending` by `pAdmin`. -/
def approvalPost : Store :=
  (runProcessOwnerApplication baseStore "admin1" "a1" true none "t1").1

/-- The application row after the concrete approval. -/
def appApproved : OwnerApplication :=
  { appPending with
    status := .approved
    reviewed_by := some "admin1"
    reviewed_at := some "t1"
    admin_notes := none
    updated_at := "t1" }

/-- The applicant's profile after the concrete approval. -/
def pApplicantPromoted : Profile :=
  { pApplicant with user_role := .location_owner, updated_at := "t1" }

/-- Witness for C1: in the concrete approval run, the observer's
post-state holds both the approved application row and the promoted
profile. -/
theorem processApplication_atomic_witness :
    appApproved ∈ approvalPost.owner_applications ∧
    appApproved.status = AppStatus.approved ∧
    pApplicantPromoted ∈ approvalPost.profiles ∧
    pApplicantPromoted.user_role = Role.location_owner := by
  have h := (processApplication_atomic baseStore "admin1" "a1" true none
    "t1").2 true (by rfl)
  obtain ⟨app, hmem, hid, hpend, happr, _⟩ := h
  have happl : app = appPending := List.mem_singleton.1 hmem
  refine ⟨by decide, rfl, by decide, ?_⟩
  refine (happr rfl).2 pApplicantPromoted (by decide) ?_
  rw [happl]
  decide

end ParkingManager
